import Mathlib

/-!
Verification of the provides side of the AWS integration interface layer
(`provides.py`): the `IntegrationRequest` view over a remote unit's received
relation data and the `AWSIntegrationProvides` endpoint handlers
(`check_requests`, `cleanup`).

The embedding models:
* relation data values as JSON values (`JVal`) — the transport stores
  serialized JSON strings and deserializes on each access
  (`JSONUnitDataView` semantics: a missing key reads as `None`);
* the request content hash exactly as the source computes it:
  `sha256(json.dumps(dict(unit.received), sort_keys=True).encode('utf8')).hexdigest()`,
  with a full executable SHA-256 and a faithful `json.dumps` (keys sorted
  recursively, `ensure_ascii` escaping, separators `", "` and `": "`);
* the process-wide key-value store (`unitdata.kv()`), the outgoing relation
  payload (`to_publish`) and the reactive flags as explicit state.
-/

namespace AWSIntegration

/-- JSON values, as exchanged over the relation data bus.  Charm relation
data is JSON-serialized; numbers occurring in this interface are integers. -/
inductive JVal : Type where
  | null : JVal
  | bool : Bool → JVal
  | num : Int → JVal
  | str : String → JVal
  | arr : List JVal → JVal
  | obj : List (String × JVal) → JVal

/-- Python truthiness of a deserialized JSON value (`bool(x)`):
`None`, `False`, `0`, `""`, `[]` and `\x7b\x7d` are falsy. -/
def truthy : JVal → Bool
  | .null => false
  | .bool b => b
  | .num n => n != 0
  | .str s => s != ""
  | .arr xs => !xs.isEmpty
  | .obj kvs => !kvs.isEmpty

/-! ### Association-list maps

`unitdata.kv()`, `to_publish` and the published `completed` map are all
string-keyed mappings; we model them as association lists with
replace-in-place update (Python dict assignment keeps the position of an
existing key) and lookup of the first matching key. -/

/-- Lookup in a string-keyed association list (`d.get(k)` / `d[k]`). -/
def alookup : List (String × α) → String → Option α
  | [], _ => none
  | p :: ps, k => if p.1 = k then some p.2 else alookup ps k

/-- `d[k] = v` on a dict: replace the existing entry in place, else append. -/
def aset : List (String × α) → String → α → List (String × α)
  | [], k, v => [(k, v)]
  | p :: ps, k, v => if p.1 = k then (k, v) :: ps else p :: aset ps k v

/-- `del d[k]` / `kv.unset(k)`: drop every entry with the given key. -/
def aremove : List (String × α) → String → List (String × α)
  | [], _ => []
  | p :: ps, k => if p.1 = k then aremove ps k else p :: aremove ps k

/-! ### `json.dumps(..., sort_keys=True)` -/

/-- Ordering of object entries by key, as `sort_keys=True` sorts them
(Python compares strings by code point, as does Lean's `String` order). -/
def keyLE (p q : String × JVal) : Prop := p.1 ≤ q.1

instance : DecidableRel keyLE := fun p q => inferInstanceAs (Decidable (p.1 ≤ q.1))

instance : IsTotal (String × JVal) keyLE := ⟨fun p q => le_total p.1 q.1⟩

instance : IsTrans (String × JVal) keyLE := ⟨fun _ _ _ h₁ h₂ => le_trans h₁ h₂⟩

/-- Sort the entries of one object level by key. -/
def sortPairs (kvs : List (String × JVal)) : List (String × JVal) :=
  kvs.insertionSort keyLE

mutual

/-- Recursively sort every object's entries by key, as
`json.dumps(..., sort_keys=True)` renders objects at every depth. -/
def sortJVal : JVal → JVal
  | .null => .null
  | .bool b => .bool b
  | .num n => .num n
  | .str s => .str s
  | .arr xs => .arr (sortJValList xs)
  | .obj kvs => .obj (sortPairs (sortJValPairs kvs))

def sortJValList : List JVal → List JVal
  | [] => []
  | x :: xs => sortJVal x :: sortJValList xs

def sortJValPairs : List (String × JVal) → List (String × JVal)
  | [] => []
  | p :: ps => (p.1, sortJVal p.2) :: sortJValPairs ps

end

/-- Lower-case hex digit, as Python's `hexdigest` and `\u` escapes use. -/
def hexDigitChar (n : Nat) : Char :=
  if n < 10 then Char.ofNat (48 + n) else Char.ofNat (87 + n)

/-- Four-digit hex rendering for `\uXXXX` escapes. -/
def hex4 (n : Nat) : String :=
  String.mk ((List.range 4).map fun i => hexDigitChar (n / 16 ^ (3 - i) % 16))

/-- `json.dumps` string-character rendering with the default
`ensure_ascii=True`: `"` and `\` and the named control escapes as two-char
escapes, other chars below 0x20 and all chars above 0x7f as `\u` escapes
(astral chars as a surrogate pair). -/
def escapeChar (c : Char) : String :=
  let n := c.toNat
  if n == 34 then "\\\""
  else if n == 92 then "\\\\"
  else if n == 8 then "\\b"
  else if n == 9 then "\\t"
  else if n == 10 then "\\n"
  else if n == 12 then "\\f"
  else if n == 13 then "\\r"
  else if n < 32 then "\\u" ++ hex4 n
  else if n < 127 then String.singleton c
  else if n < 65536 then "\\u" ++ hex4 n
  else "\\u" ++ hex4 (55296 + (n - 65536) / 1024) ++ "\\u" ++ hex4 (56320 + (n - 65536) % 1024)

/-- JSON string literal rendering. -/
def dumpString (s : String) : String :=
  "\"" ++ String.join (s.toList.map escapeChar) ++ "\""

mutual

/-- `json.dumps` with the default separators `", "` and `": "`; objects are
rendered in the order given (sorting is applied by `sortJVal` first). -/
def dumpJVal : JVal → String
  | .null => "null"
  | .bool true => "true"
  | .bool false => "false"
  | .num n => toString n
  | .str s => dumpString s
  | .arr xs => "[" ++ dumpList xs ++ "]"
  | .obj kvs => "\x7b" ++ dumpPairs kvs ++ "\x7d"

def dumpList : List JVal → String
  | [] => ""
  | [x] => dumpJVal x
  | x :: y :: xs => dumpJVal x ++ ", " ++ dumpList (y :: xs)

def dumpPairs : List (String × JVal) → String
  | [] => ""
  | [p] => dumpString p.1 ++ ": " ++ dumpJVal p.2
  | p :: q :: ps => dumpString p.1 ++ ": " ++ dumpJVal p.2 ++ ", " ++ dumpPairs (q :: ps)

end

/-- UTF-8 bytes of one character (`.encode('utf8')`). -/
def utf8Bytes (c : Char) : List Nat :=
  let n := c.toNat
  if n < 128 then [n]
  else if n < 2048 then [192 + n / 64, 128 + n % 64]
  else if n < 65536 then [224 + n / 4096, 128 + n / 64 % 64, 128 + n % 64]
  else [240 + n / 262144, 128 + n / 4096 % 64, 128 + n / 64 % 64, 128 + n % 64]

/-- UTF-8 encoding of a string as a byte list. -/
def encodeUtf8 (s : String) : List Nat :=
  (s.toList.map utf8Bytes).flatten

/-! ### SHA-256 (`hashlib.sha256(...).hexdigest()`) -/

/-- Truncate to a 32-bit word. -/
def w32 (x : Nat) : Nat := x % 4294967296

/-- Right-rotation of a 32-bit word (the rotated halves do not overlap, so
bitwise or is addition). -/
def rotr (n x : Nat) : Nat := w32 (x / 2 ^ n + x * 2 ^ (32 - n))

def shaCh (e f g : Nat) : Nat := (e &&& f) ^^^ ((4294967295 - w32 e) &&& g)

def shaMaj (a b c : Nat) : Nat := (a &&& b) ^^^ (a &&& c) ^^^ (b &&& c)

def bigSigma0 (a : Nat) : Nat := rotr 2 a ^^^ rotr 13 a ^^^ rotr 22 a

def bigSigma1 (e : Nat) : Nat := rotr 6 e ^^^ rotr 11 e ^^^ rotr 25 e

def smallSigma0 (x : Nat) : Nat := rotr 7 x ^^^ rotr 18 x ^^^ x / 2 ^ 3

def smallSigma1 (x : Nat) : Nat := rotr 17 x ^^^ rotr 19 x ^^^ x / 2 ^ 10

/-- The 64 SHA-256 round constants of FIPS 180-4 (written in decimal;
the first is 0x428a2f98 and the last 0xc67178f2). -/
def K256 : List Nat :=
  [1116352408, 1899447441, 3049323471, 3921009573, 961987163, 1508970993, 2453635748,
   2870763221, 3624381080, 310598401, 607225278, 1426881987, 1925078388, 2162078206,
   2614888103, 3248222580, 3835390401, 4022224774, 264347078, 604807628, 770255983, 1249150122,
   1555081692, 1996064986, 2554220882, 2821834349, 2952996808, 3210313671, 3336571891,
   3584528711, 113926993, 338241895, 666307205, 773529912, 1294757372, 1396182291, 1695183700,
   1986661051, 2177026350, 2456956037, 2730485921, 2820302411, 3259730800, 3345764771,
   3516065817, 3600352804, 4094571909, 275423344, 430227734, 506948616, 659060556, 883997877,
   958139571, 1322822218, 1537002063, 1747873779, 1955562222, 2024104815, 2227730452,
   2361852424, 2428436474, 2756734187, 3204031479, 3329325298]

/-- The working state: eight 32-bit words. -/
structure Hash8 where
  a : Nat
  b : Nat
  c : Nat
  d : Nat
  e : Nat
  f : Nat
  g : Nat
  h : Nat
deriving DecidableEq

/-- The SHA-256 initial hash value of FIPS 180-4 (in decimal; the first
word is 0x6a09e667). -/
def sha256Init : Hash8 :=
  ⟨1779033703, 3144134277, 1013904242, 2773480762,
   1359893119, 2600822924, 528734635, 1541459225⟩

/-- Big-endian rendering of `n` as `k` bytes. -/
def beBytes (k n : Nat) : List Nat :=
  (List.range k).map fun i => n / 256 ^ (k - 1 - i) % 256

/-- SHA-256 message padding: append `0x80`, zeros to 56 mod 64, then the
bit length as eight big-endian bytes. -/
def sha256Pad (msg : List Nat) : List Nat :=
  msg ++ [128] ++ List.replicate ((119 - msg.length % 64) % 64) 0 ++ beBytes 8 (msg.length * 8)

/-- Split a byte list into 64-byte chunks. -/
def chunks64 (bs : List Nat) : List (List Nat) :=
  if h : bs = [] then []
  else bs.take 64 :: chunks64 (bs.drop 64)
termination_by bs.length
decreasing_by
  simp only [List.length_drop]
  exact Nat.sub_lt (List.length_pos.mpr h) (by norm_num)

/-- Big-endian 32-bit words of a chunk. -/
def wordsOfBytes : List Nat → List Nat
  | b0 :: b1 :: b2 :: b3 :: rest =>
      (b0 * 16777216 + b1 * 65536 + b2 * 256 + b3) :: wordsOfBytes rest
  | _ => []

/-- Extend the 16 message words to the 64-entry message schedule. -/
def schedule (w : List Nat) : List Nat :=
  (List.range 48).foldl
    (fun acc _ =>
      let i := acc.length
      acc ++ [w32 (acc.getD (i - 16) 0 + smallSigma0 (acc.getD (i - 15) 0) +
                   acc.getD (i - 7) 0 + smallSigma1 (acc.getD (i - 2) 0))])
    w

/-- One compression round. -/
def sha256Round (s : Hash8) (wi ki : Nat) : Hash8 :=
  let t1 := w32 (s.h + bigSigma1 s.e + shaCh s.e s.f s.g + ki + wi)
  let t2 := w32 (bigSigma0 s.a + shaMaj s.a s.b s.c)
  ⟨w32 (t1 + t2), s.a, s.b, s.c, w32 (s.d + t1), s.e, s.f, s.g⟩

/-- Process one 64-byte chunk. -/
def processChunk (s : Hash8) (chunk : List Nat) : Hash8 :=
  let ws := schedule (wordsOfBytes chunk)
  let t := (ws.zip K256).foldl (fun st p => sha256Round st p.1 p.2) s
  ⟨w32 (s.a + t.a), w32 (s.b + t.b), w32 (s.c + t.c), w32 (s.d + t.d),
   w32 (s.e + t.e), w32 (s.f + t.f), w32 (s.g + t.g), w32 (s.h + t.h)⟩

/-- The SHA-256 digest of a byte list, as eight 32-bit words. -/
def sha256Digest (msg : List Nat) : Hash8 :=
  (chunks64 (sha256Pad msg)).foldl processChunk sha256Init

/-- Eight-digit hex rendering of one digest word. -/
def hex8 (n : Nat) : String :=
  String.mk ((List.range 8).map fun i => hexDigitChar (n / 16 ^ (7 - i) % 16))

/-- `sha256(msg).hexdigest()`: the 64-character lower-case hex digest. -/
def sha256Hex (msg : List Nat) : String :=
  let d := sha256Digest msg
  hex8 d.a ++ hex8 d.b ++ hex8 d.c ++ hex8 d.d ++ hex8 d.e ++ hex8 d.f ++ hex8 d.g ++ hex8 d.h

/-- The request content hash
(`sha256(json.dumps(dict(unit.received), sort_keys=True).encode('utf8')).hexdigest()`),
a pure function of the received mapping. -/
def hashOf (received : List (String × JVal)) : String :=
  sha256Hex (encodeUtf8 (dumpJVal (sortJVal (.obj received))))

/-! ### Participants and endpoint state -/

/-- One remote participant (unit) on the relation.  `received` is the
deserialized view of the data it published; the transport owns it and
stores it as serialized JSON, deserializing on each access. -/
structure Participant where
  unitName : String
  applicationName : String
  received : List (String × JVal)

/-- `unit.received[key]`: the transport's JSON data view returns `None`
for a missing key rather than raising. -/
def recvItem (u : Participant) (k : String) : JVal :=
  (alookup u.received k).getD .null

/-- `unit.received.get(key, default)`. -/
def recvGet (u : Participant) (k : String) (dflt : JVal) : JVal :=
  (alookup u.received k).getD dflt

/-- `IntegrationRequest.instance_id` (`received['instance-id']`). -/
def instance_id (u : Participant) : JVal := recvItem u "instance-id"

/-- `IntegrationRequest._requested` (`received['requested']`). -/
def requestedVal (u : Participant) : JVal := recvItem u "requested"

/-- `IntegrationRequest.region` (`received['region']`). -/
def region (u : Participant) : JVal := recvItem u "region"

/-- A single-quoted Python string literal (content escaping elided:
instance ids are plain strings in this interface). -/
def pyQuote (s : String) : String :=
  String.singleton (Char.ofNat 39) ++ s ++ String.singleton (Char.ofNat 39)

mutual

/-- Python `repr` of a deserialized JSON value, used only when a non-string
value is interpolated into the acknowledgement key. -/
def pyRepr : JVal → String
  | .null => "None"
  | .bool true => "True"
  | .bool false => "False"
  | .num n => toString n
  | .str s => pyQuote s
  | .arr xs => "[" ++ pyReprList xs ++ "]"
  | .obj kvs => "\x7b" ++ pyReprPairs kvs ++ "\x7d"

def pyReprList : List JVal → String
  | [] => ""
  | [x] => pyRepr x
  | x :: y :: xs => pyRepr x ++ ", " ++ pyReprList (y :: xs)

def pyReprPairs : List (String × JVal) → String
  | [] => ""
  | [p] => pyQuote p.1 ++ ": " ++ pyRepr p.2
  | p :: q :: ps => pyQuote p.1 ++ ": " ++ pyRepr p.2 ++ ", " ++ pyReprPairs (q :: ps)

end

/-- Python `str(x)` as used by `'request.\x7b\x7d'.format(instance_id)`. -/
def pyStr : JVal → String
  | .str s => s
  | v => pyRepr v

/-- `IntegrationRequest._hash_key`:
`endpoint.expand_name('request.\x7b\x7d'.format(instance_id))`, i.e.
`endpoint.<endpoint-name>.request.<instance-id>`. -/
def hashKey (ep : String) (u : Participant) : String :=
  "endpoint." ++ ep ++ ".request." ++ pyStr (instance_id u)

/-- The mutable state this layer touches: the process-wide key-value store
(`unitdata.kv()`), the relation's outgoing payload (`to_publish`, holding
the published `completed` map) and the reactive flag set. -/
structure EPState where
  kv : List (String × String)
  toPublish : List (String × JVal)
  flags : List String

/-- `Endpoint.expand_name`: qualify a flag or key name with the endpoint. -/
def expand_name (ep name : String) : String :=
  "endpoint." ++ ep ++ "." ++ name

/-- `set_flag`. -/
def setFlag (flags : List String) (f : String) : List String :=
  if f ∈ flags then flags else flags ++ [f]

/-- `clear_flag`. -/
def clearFlag (flags : List String) (f : String) : List String :=
  flags.filter (fun g => !(g == f))

/-- `toggle_flag(f, b)`: set the flag when `b` is truthy, else clear it. -/
def toggleFlag (flags : List String) (f : String) (b : Bool) : List String :=
  if b then setFlag flags f else clearFlag flags f

/-! ### Request status and transitions -/

/-- `IntegrationRequest.changed`: false unless `instance_id` and
`_requested` are present and truthy; otherwise whether the persisted
acknowledgement hash is absent or differs from the current hash. -/
def changed (kv : List (String × String)) (ep : String) (u : Participant) : Bool :=
  if !(truthy (instance_id u) && truthy (requestedVal u)) then false
  else alookup kv (hashKey ep u) != some (hashOf u.received)

/-- `IntegrationRequest.completed_for_instance`:
`instance_id and _requested and instance_hash and instance_hash == hash`. -/
def completed_for_instance (kv : List (String × String)) (ep : String) (u : Participant) : Bool :=
  truthy (instance_id u) && truthy (requestedVal u) &&
    (match alookup kv (hashKey ep u) with
     | some h => h != "" && h == hashOf u.received
     | none => false)

/-- `to_publish.get('completed', \x7b\x7d)`: the published completion map.
Only `mark_completed` ever writes this key, always as an object. -/
def pubCompleted (tp : List (String × JVal)) : List (String × JVal) :=
  match alookup tp "completed" with
  | some (.obj kvs) => kvs
  | _ => []

/-- `IntegrationRequest.is_completed`: whether the published completion map
already carries this instance's current hash.  The published map has string
keys (it round-trips through JSON serialization on publish), so only a
string instance id can match an entry. -/
def is_completed (tp : List (String × JVal)) (u : Participant) : Bool :=
  match instance_id u with
  | .str s =>
      match alookup (pubCompleted tp) s with
      | some (.str h) => h == hashOf u.received
      | _ => false
  | _ => false

/-- The key under which `completed[instance_id] = hash` lands once the map
is serialized for publication: `json.dumps` renders non-string scalar keys
by their JSON form.  (For container keys Python would raise — unreachable
for interface-conformant data, where instance ids are strings.) -/
def pyJsonKey : JVal → String
  | .str s => s
  | .bool true => "true"
  | .bool false => "false"
  | .num n => toString n
  | .null => "null"
  | v => dumpJVal v

/-- `IntegrationRequest.mark_completed`: write the current hash into the
persisted acknowledgement store under this instance's key and into the
outgoing `completed` map under the instance id. -/
def mark_completed (ep : String) (st : EPState) (u : Participant) : EPState :=
  let completed := pubCompleted st.toPublish
  let completed2 := aset completed (pyJsonKey (instance_id u)) (.str (hashOf u.received))
  { st with
    kv := aset st.kv (hashKey ep u) (hashOf u.received)
    toPublish := aset st.toPublish "completed" (.obj completed2) }

/-- `IntegrationRequest.clear`: remove this instance's persisted
acknowledgement entry (`unitdata.kv().unset(self._hash_key)`). -/
def clearRequest (ep : String) (kv : List (String × String)) (u : Participant) :
    List (String × String) :=
  aremove kv (hashKey ep u)

/-- The body of the `check_requests` loop for one request: a changed
request marks pending work; a request not yet recorded as completed whose
persisted acknowledgement already matches is marked completed. -/
def checkStep (ep : String) (acc : EPState × Bool) (u : Participant) : EPState × Bool :=
  if changed acc.1.kv ep u then (acc.1, true)
  else if !(is_completed acc.1.toPublish u) && completed_for_instance acc.1.kv ep u then
    (mark_completed ep acc.1 u, acc.2)
  else acc

/-- `AWSIntegrationProvides.check_requests`: process every joined unit's
request, toggle the `requested` flag by whether any request was unfulfilled,
and clear the `changed` flag. -/
def check_requests (ep : String) (units : List Participant) (st : EPState) : EPState :=
  let r := units.foldl (checkStep ep) (st, false)
  let st2 := { r.1 with flags := toggleFlag r.1.flags (expand_name ep "requested") r.2 }
  { st2 with flags := clearFlag st2.flags (expand_name ep "changed") }

/-- `AWSIntegrationProvides.cleanup`: clear each departed unit's persisted
acknowledgement, then clear the `departed` trigger flag (the transport-owned
departed set, emptied last, is the `departed` argument here). -/
def cleanup (ep : String) (departed : List Participant) (st : EPState) : EPState :=
  { st with
    kv := departed.foldl (fun kv u => clearRequest ep kv u) st.kv
    flags := clearFlag st.flags (expand_name ep "departed") }

/-! ### Typed accessors -/

/-- One `[key, value]` element of a pair-sequence accepted by `dict(...)`
(only string keys are representable here; for non-string keys or other
element shapes Python raises). -/
def pyPair : JVal → Except String (String × JVal)
  | .arr [.str k, v] => .ok (k, v)
  | _ => .error "TypeError"

/-- `dict(x)`: copy construction of a dict from a deserialized value.  An
object copies its entries; an empty string is an empty iterable; a list
converts elementwise as pairs; anything else raises. -/
def pyDictCopy : JVal → Except String (List (String × JVal))
  | .obj kvs => .ok kvs
  | .str s => if s = "" then .ok [] else .error "ValueError"
  | .arr xs => xs.mapM pyPair
  | _ => .error "TypeError"

/-- `list(x)`: copy construction of a list: a list copies, a string yields
its characters, a dict yields its keys; other values raise. -/
def pyListCopy : JVal → Except String (List JVal)
  | .arr xs => .ok xs
  | .str s => .ok (s.toList.map (fun c => .str (String.singleton c)))
  | .obj kvs => .ok (kvs.map (fun p => JVal.str p.1))
  | _ => .error "TypeError"

/-- `IntegrationRequest.instance_tags`:
`dict(received.get('instance-tags', \x7b\x7d))`. -/
def instance_tags (u : Participant) : Except String (List (String × JVal)) :=
  pyDictCopy (recvGet u "instance-tags" (.obj []))

/-- `IntegrationRequest.instance_security_group_tags`. -/
def instance_security_group_tags (u : Participant) : Except String (List (String × JVal)) :=
  pyDictCopy (recvGet u "instance-security-group-tags" (.obj []))

/-- `IntegrationRequest.instance_subnet_tags`. -/
def instance_subnet_tags (u : Participant) : Except String (List (String × JVal)) :=
  pyDictCopy (recvGet u "instance-subnet-tags" (.obj []))

/-- `IntegrationRequest.object_storage_access_patterns`:
`list(received['object-storage-access-patterns'] or [])`. -/
def object_storage_access_patterns (u : Participant) : Except String (List JVal) :=
  let v := recvItem u "object-storage-access-patterns"
  pyListCopy (if truthy v then v else .arr [])

/-- `IntegrationRequest.object_storage_management_patterns`. -/
def object_storage_management_patterns (u : Participant) : Except String (List JVal) :=
  let v := recvItem u "object-storage-management-patterns"
  pyListCopy (if truthy v then v else .arr [])

/-- `bool(received[key])`, the shape of every `requested_*` flag accessor. -/
def requestedFlag (u : Participant) (k : String) : Bool :=
  truthy (recvItem u k)

def requested_instance_inspection (u : Participant) : Bool :=
  requestedFlag u "enable-instance-inspection"

def requested_acm_readonly (u : Participant) : Bool :=
  requestedFlag u "enable-acm-readonly"

def requested_acm_fullaccess (u : Participant) : Bool :=
  requestedFlag u "enable-acm-fullaccess"

def requested_network_management (u : Participant) : Bool :=
  requestedFlag u "enable-network-management"

def requested_load_balancer_management (u : Participant) : Bool :=
  requestedFlag u "enable-load-balancer-management"

def requested_block_storage_management (u : Participant) : Bool :=
  requestedFlag u "enable-block-storage-management"

def requested_dns_management (u : Participant) : Bool :=
  requestedFlag u "enable-dns-management"

def requested_object_storage_access (u : Participant) : Bool :=
  requestedFlag u "enable-object-storage-access"

def requested_object_storage_management (u : Participant) : Bool :=
  requestedFlag u "enable-object-storage-management"

def requested_ses_readonly (u : Participant) : Bool :=
  requestedFlag u "enable-ses-readonly"

def requested_ses_fullaccess (u : Participant) : Bool :=
  requestedFlag u "enable-ses-fullaccess"

def requested_sns_readonly (u : Participant) : Bool :=
  requestedFlag u "enable-sns-readonly"

def requested_sns_fullaccess (u : Participant) : Bool :=
  requestedFlag u "enable-sns-fullaccess"

def requested_mobiletargeting_readonly (u : Participant) : Bool :=
  requestedFlag u "enable-mobiletargeting-readonly"

def requested_mobiletargeting_fullaccess (u : Participant) : Bool :=
  requestedFlag u "enable-mobiletargeting-fullaccess"

def requested_sms_voice_readonly (u : Participant) : Bool :=
  requestedFlag u "enable-sms-voice-readonly"

def requested_sms_voice_fullaccess (u : Participant) : Bool :=
  requestedFlag u "enable-sms-voice-fullaccess"

/-! ### A heap of caller-visible container copies

The copying accessors hand the caller a mutable container.  To state that
these are defensive copies we model the containers a caller holds as cells
in a heap.  The transport's own data never lives in this heap: the relation
bus stores serialized strings and the view deserializes afresh on every
access, which is exactly why callers cannot corrupt it. -/

/-- A mutable Python container cell. -/
inductive PyCell where
  | dictCell : List (String × JVal) → PyCell
  | listCell : List JVal → PyCell

/-- The caller-side heap of container cells. -/
structure Heap where
  cells : List (Nat × PyCell)
  next : Nat

/-- Heap well-formedness: every allocated address is below `next`. -/
def WFHeap (h : Heap) : Prop := ∀ p ∈ h.cells, p.1 < h.next

/-- Lookup in the address-keyed cell list. -/
def cellsGet : List (Nat × PyCell) → Nat → Option PyCell
  | [], _ => none
  | p :: ps, a => if p.1 = a then some p.2 else cellsGet ps a

/-- Read the cell at an address. -/
def hget (h : Heap) (a : Nat) : Option PyCell :=
  cellsGet h.cells a

/-- Allocate a fresh cell. -/
def halloc (h : Heap) (c : PyCell) : Nat × Heap :=
  (h.next, ⟨h.cells ++ [(h.next, c)], h.next + 1⟩)

/-- Mutate the cell at an address in place. -/
def hset (h : Heap) (a : Nat) (c : PyCell) : Heap :=
  ⟨h.cells.map (fun p => if p.1 = a then (a, c) else p), h.next⟩

/-- Run a dict-valued accessor: the copy it builds is allocated as a fresh
cell handed to the caller. -/
def runDictAccessor (acc : Participant → Except String (List (String × JVal)))
    (u : Participant) (h : Heap) : Except String (Nat × Heap) :=
  (acc u).map (fun d => halloc h (.dictCell d))

/-- Run a list-valued accessor, allocating the returned copy. -/
def runListAccessor (acc : Participant → Except String (List JVal))
    (u : Participant) (h : Heap) : Except String (Nat × Heap) :=
  (acc u).map (fun d => halloc h (.listCell d))

/-- A lower-case hexadecimal digit. -/
def IsLowerHexChar (c : Char) : Prop :=
  (48 ≤ c.toNat ∧ c.toNat ≤ 57) ∨ (97 ≤ c.toNat ∧ c.toNat ≤ 102)

instance (c : Char) : Decidable (IsLowerHexChar c) :=
  inferInstanceAs (Decidable ((48 ≤ c.toNat ∧ c.toNat ≤ 57) ∨ (97 ≤ c.toNat ∧ c.toNat ≤ 102)))

/-- The defensive-copy contract of a dict-valued accessor: the returned
cell is fresh (it did not exist before the call, so it aliases nothing the
caller or the transport holds); it holds exactly the accessor's value;
mutating it touches no other cell; and a repeated call — which re-reads
the transport — still yields the original contents.  The participant's
underlying received data and its hash are functions of the transport's
serialized data alone, which does not live in this heap, so no mutation of
a returned copy can reach them. -/
def DefensiveDict (acc : Participant → Except String (List (String × JVal))) : Prop :=
  ∀ (u : Participant) (h : Heap) (w : PyCell) (a : Nat) (h1 : Heap)
    (d : List (String × JVal)),
    WFHeap h → runDictAccessor acc u h = .ok (a, h1) → acc u = .ok d →
    hget h a = none
    ∧ hget h1 a = some (.dictCell d)
    ∧ (∀ b, b ≠ a → hget (hset h1 a w) b = hget h1 b)
    ∧ ∃ a2 h2, runDictAccessor acc u (hset h1 a w) = .ok (a2, h2)
        ∧ hget h2 a2 = some (.dictCell d)

/-- The same contract for a list-valued accessor. -/
def DefensiveList (acc : Participant → Except String (List JVal)) : Prop :=
  ∀ (u : Participant) (h : Heap) (w : PyCell) (a : Nat) (h1 : Heap) (d : List JVal),
    WFHeap h → runListAccessor acc u h = .ok (a, h1) → acc u = .ok d →
    hget h a = none
    ∧ hget h1 a = some (.listCell d)
    ∧ (∀ b, b ≠ a → hget (hset h1 a w) b = hget h1 b)
    ∧ ∃ a2 h2, runListAccessor acc u (hset h1 a w) = .ok (a2, h2)
        ∧ hget h2 a2 = some (.listCell d)

/-! ### Lemmas: association-list maps -/

theorem alookup_aset_self (l : List (String × α)) (k : String) (v : α) :
    alookup (aset l k v) k = some v := by
  induction l with
  | nil => simp [aset, alookup]
  | cons p ps ih =>
    by_cases hp : p.1 = k
    · simp [aset, hp, alookup]
    · simp [aset, hp, alookup, ih]

theorem alookup_aset_ne (l : List (String × α)) (k k2 : String) (v : α) (h : k2 ≠ k) :
    alookup (aset l k v) k2 = alookup l k2 := by
  induction l with
  | nil => simp [aset, alookup, Ne.symm h]
  | cons p ps ih =>
    by_cases hp : p.1 = k
    · simp [aset, hp, alookup, Ne.symm h]
    · by_cases hq : p.1 = k2 <;> simp [aset, hp, alookup, hq, ih, h]

theorem aset_aset_same (l : List (String × α)) (k : String) (v w : α) :
    aset (aset l k v) k w = aset l k w := by
  induction l with
  | nil => simp [aset]
  | cons p ps ih =>
    by_cases hp : p.1 = k
    · simp [aset, hp]
    · simp [aset, hp, ih]

theorem alookup_aremove_self (l : List (String × α)) (k : String) :
    alookup (aremove l k) k = none := by
  induction l with
  | nil => simp [aremove, alookup]
  | cons p ps ih =>
    by_cases hp : p.1 = k
    · simp [aremove, hp, ih]
    · simp [aremove, hp, alookup, ih]

theorem alookup_aremove_ne (l : List (String × α)) (k k2 : String) (h : k2 ≠ k) :
    alookup (aremove l k) k2 = alookup l k2 := by
  induction l with
  | nil => simp [aremove]
  | cons p ps ih =>
    by_cases hp : p.1 = k
    · simp [aremove, hp, alookup, Ne.symm h, ih]
    · by_cases hq : p.1 = k2 <;> simp [aremove, hp, alookup, hq, ih, h]

/-! ### Lemmas: the caller-side heap -/

theorem cellsGet_all_lt (l : List (Nat × PyCell)) (n : Nat) (hlt : ∀ p ∈ l, p.1 < n) :
    cellsGet l n = none := by
  induction l with
  | nil => rfl
  | cons p ps ih =>
    have h1 : p.1 < n := hlt p (by simp)
    have h2 : ∀ q ∈ ps, q.1 < n := fun q hq => hlt q (by simp [hq])
    simp [cellsGet, Nat.ne_of_lt h1, ih h2]

theorem hget_next_none (h : Heap) (hwf : WFHeap h) : hget h h.next = none :=
  cellsGet_all_lt h.cells h.next hwf

theorem cellsGet_append_right (l1 l2 : List (Nat × PyCell)) (a : Nat)
    (h : cellsGet l1 a = none) : cellsGet (l1 ++ l2) a = cellsGet l2 a := by
  induction l1 with
  | nil => rfl
  | cons p ps ih =>
    by_cases hp : p.1 = a
    · simp [cellsGet, hp] at h
    · simp only [cellsGet, hp, if_neg hp, List.cons_append] at h ⊢
      exact ih h

theorem hget_halloc_self (h : Heap) (c : PyCell) (hwf : WFHeap h) :
    hget (halloc h c).2 (halloc h c).1 = some c := by
  have hnone : cellsGet h.cells h.next = none := cellsGet_all_lt h.cells h.next hwf
  simp [halloc, hget, cellsGet_append_right h.cells _ h.next hnone, cellsGet]

theorem hget_hset_ne (h : Heap) (a b : Nat) (c : PyCell) (hne : b ≠ a) :
    hget (hset h a c) b = hget h b := by
  show cellsGet (h.cells.map fun p => if p.1 = a then (a, c) else p) b = cellsGet h.cells b
  induction h.cells with
  | nil => rfl
  | cons p ps ih =>
    by_cases hp : p.1 = a
    · simp [cellsGet, hp, Ne.symm hne, ih, hne]
    · by_cases hq : p.1 = b <;> simp [cellsGet, hp, hq, ih, hne]

theorem wf_halloc (h : Heap) (c : PyCell) (hwf : WFHeap h) : WFHeap (halloc h c).2 := by
  intro p hp
  simp only [halloc, List.mem_append, List.mem_singleton] at hp
  rcases hp with hp | hp
  · exact Nat.lt_succ_of_lt (hwf p hp)
  · subst hp
    exact Nat.lt_succ_self _

theorem wf_hset (h : Heap) (a : Nat) (c : PyCell) (hwf : WFHeap h) : WFHeap (hset h a c) := by
  intro p hp
  have hp2 : p ∈ h.cells.map (fun q => if q.1 = a then (a, c) else q) := hp
  rw [List.mem_map] at hp2
  obtain ⟨q, hq, hpq⟩ := hp2
  show p.1 < h.next
  by_cases hqa : q.1 = a
  · rw [if_pos hqa] at hpq
    rw [← hpq]
    exact hqa ▸ hwf q hq
  · rw [if_neg hqa] at hpq
    rw [← hpq]
    exact hwf q hq

/-! ### Lemmas: request status -/

theorem completed_for_instance_spec (kv : List (String × String)) (ep : String)
    (u : Participant) (h : completed_for_instance kv ep u = true) :
    truthy (instance_id u) = true ∧ truthy (requestedVal u) = true ∧
      alookup kv (hashKey ep u) = some (hashOf u.received) := by
  unfold completed_for_instance at h
  by_cases h1 : truthy (instance_id u) <;> by_cases h2 : truthy (requestedVal u) <;>
    simp [h1, h2] at h ⊢
  cases halo : alookup kv (hashKey ep u) with
  | none => rw [halo] at h; simp at h
  | some v =>
      rw [halo] at h
      simp only [Bool.and_eq_true, beq_iff_eq] at h
      rw [h.2]

theorem changed_false_of_kv_eq (kv : List (String × String)) (ep : String) (u : Participant)
    (h : alookup kv (hashKey ep u) = some (hashOf u.received)) :
    changed kv ep u = false := by
  unfold changed
  by_cases h1 : !(truthy (instance_id u) && truthy (requestedVal u)) <;> simp [h1, h]

theorem changed_congr (kv1 kv2 : List (String × String)) (ep : String) (u : Participant)
    (h : alookup kv1 (hashKey ep u) = alookup kv2 (hashKey ep u)) :
    changed kv1 ep u = changed kv2 ep u := by
  unfold changed
  rw [h]

theorem completed_for_instance_congr (kv1 kv2 : List (String × String)) (ep : String)
    (u : Participant) (h : alookup kv1 (hashKey ep u) = alookup kv2 (hashKey ep u)) :
    completed_for_instance kv1 ep u = completed_for_instance kv2 ep u := by
  unfold completed_for_instance
  rw [h]

/-- C1: over any store, `changed` is true iff `instance-id` and `requested`
are present and truthy and the acknowledgement hash persisted under this
instance's key is absent or differs from the current content hash; it is
false whenever either indicator is absent or falsy, regardless of every
other received field. -/
theorem claim_C1_changed_iff (kv : List (String × String)) (ep : String) (u : Participant) :
    (changed kv ep u = true ↔
      (truthy (instance_id u) = true ∧ truthy (requestedVal u) = true ∧
        alookup kv (hashKey ep u) ≠ some (hashOf u.received)))
    ∧ ((truthy (instance_id u) = false ∨ truthy (requestedVal u) = false) →
        changed kv ep u = false) := by
  constructor
  · unfold changed
    by_cases h1 : truthy (instance_id u) <;> by_cases h2 : truthy (requestedVal u) <;>
      simp [h1, h2]
  · intro h
    unfold changed
    rcases h with h | h <;> simp [h]

/-- Witness for C1: a request whose `requested` indicator is absent is not
`changed`, whatever else it carries. -/
theorem claim_C1_witness :
    changed [] "aws"
      ⟨"remote/0", "remote",
        [("instance-id", .str "i-1"), ("region", .str "us-east-1")]⟩ = false :=
  (claim_C1_changed_iff [] "aws" _).2 (Or.inr rfl)

/-- C9: no request is ever both `changed` and `completed_for_instance`:
the former needs the persisted hash to be absent or different, the latter
needs it present and equal. -/
theorem claim_C9_changed_excludes_completed (kv : List (String × String)) (ep : String)
    (u : Participant) :
    (changed kv ep u && completed_for_instance kv ep u) = false := by
  cases hc : completed_for_instance kv ep u with
  | false => simp
  | true =>
      have h := (completed_for_instance_spec kv ep u hc).2.2
      simp [changed_false_of_kv_eq kv ep u h]

/-! ### Lemmas: the content hash -/

theorem hexDigitChar_isHex (n : Nat) (h : n < 16) : IsLowerHexChar (hexDigitChar n) := by
  interval_cases n <;> decide

theorem hex8_length (n : Nat) : (hex8 n).length = 8 := by
  simp [hex8, String.length]

theorem hex8_chars (n : Nat) : ∀ c ∈ (hex8 n).toList, IsLowerHexChar c := by
  intro c hc
  simp only [hex8, String.toList, String.mk, List.mem_map, List.mem_range] at hc
  obtain ⟨i, _, rfl⟩ := hc
  exact hexDigitChar_isHex _ (Nat.mod_lt _ (by norm_num))

theorem sha256Hex_length (m : List Nat) : (sha256Hex m).length = 64 := by
  simp [sha256Hex, String.length_append, hex8_length]

theorem sha256Hex_chars (m : List Nat) : ∀ c ∈ (sha256Hex m).toList, IsLowerHexChar c := by
  intro c hc
  simp only [sha256Hex, String.toList] at hc
  rw [show ∀ s t : String, (s ++ t).data = s.data ++ t.data from fun s t => String.data_append s t]
    at hc
  simp only [String.data_append, List.mem_append] at hc
  rcases hc with ((((((hc | hc) | hc) | hc) | hc) | hc) | hc) | hc <;>
    exact hex8_chars _ c hc

theorem sortJValPairs_eq_map (l : List (String × JVal)) :
    sortJValPairs l = l.map (fun p => (p.1, sortJVal p.2)) := by
  induction l with
  | nil => rfl
  | cons p ps ih => simp [sortJValPairs, ih]

/-- Sorting by key is permutation-invariant once keys are distinct. -/
theorem sortPairs_eq_of_perm (l1 l2 : List (String × JVal)) (hp : l1.Perm l2)
    (hnd : (l1.map Prod.fst).Nodup) : sortPairs l1 = sortPairs l2 := by
  have hperm : (sortPairs l1).Perm (sortPairs l2) :=
    (List.perm_insertionSort keyLE l1).trans (hp.trans (List.perm_insertionSort keyLE l2).symm)
  have hnd1 : ((sortPairs l1).map Prod.fst).Nodup :=
    (((List.perm_insertionSort keyLE l1).map Prod.fst).nodup_iff).mpr hnd
  have hnd2 : ((sortPairs l2).map Prod.fst).Nodup :=
    ((hperm.map Prod.fst).nodup_iff).mp hnd1
  have hstrict : ∀ l : List (String × JVal), (l.map Prod.fst).Nodup →
      l.Sorted keyLE → l.Sorted (fun p q => p.1 < q.1) := by
    intro l hl hsort
    have hne : l.Pairwise (fun p q => p.1 ≠ q.1) := List.pairwise_map.mp hl
    exact (hsort.and hne).imp (fun h => lt_of_le_of_ne h.1 h.2)
  haveI : IsAntisymm (String × JVal) (fun p q => p.1 < q.1) :=
    ⟨fun p q h1 h2 => absurd (lt_trans h1 h2) (lt_irrefl _)⟩
  exact List.eq_of_perm_of_sorted hperm
    (hstrict _ hnd1 (List.sorted_insertionSort keyLE l1))
    (hstrict _ hnd2 (List.sorted_insertionSort keyLE l2))

/-- C4: the request hash is order-independent — permuting the received
mapping's entries (keys being distinct, as in a dict) yields the same
hash — and is a 64-character lower-case hexadecimal string, a pure
function of the entire received mapping. -/
theorem claim_C4_hash_stable (d1 d2 : List (String × JVal)) (hp : d1.Perm d2)
    (hnd : (d1.map Prod.fst).Nodup) :
    hashOf d1 = hashOf d2 ∧ (hashOf d1).length = 64 ∧
      ∀ c ∈ (hashOf d1).toList, IsLowerHexChar c := by
  refine ⟨?_, sha256Hex_length _, sha256Hex_chars _⟩
  unfold hashOf
  have : sortJVal (.obj d1) = sortJVal (.obj d2) := by
    simp only [sortJVal, sortJValPairs_eq_map]
    rw [sortPairs_eq_of_perm _ _ (hp.map _) (by simpa [List.map_map, Function.comp] using hnd)]
  rw [this]

/-- Witness for C4: swapping two entries of a request leaves its hash
unchanged, and the hash is 64 hex characters. -/
theorem claim_C4_witness :
    hashOf [("requested", .bool true), ("instance-id", .str "i-1")] =
      hashOf [("instance-id", .str "i-1"), ("requested", .bool true)] ∧
    (hashOf [("requested", .bool true), ("instance-id", .str "i-1")]).length = 64 ∧
    ∀ c ∈ (hashOf [("requested", .bool true), ("instance-id", .str "i-1")]).toList,
      IsLowerHexChar c :=
  claim_C4_hash_stable _ _
    (List.Perm.swap ("instance-id", JVal.str "i-1") ("requested", JVal.bool true) [])
    (by decide)

/-! ### Lemmas: accessor defaults -/

theorem dict_accessor_default (u : Participant) (k : String)
    (h : alookup u.received k = none) :
    pyDictCopy (recvGet u k (.obj [])) = .ok [] := by
  simp [recvGet, h, pyDictCopy]

theorem list_accessor_default (u : Participant) (k : String)
    (h : alookup u.received k = none) :
    pyListCopy (if truthy (recvItem u k) then recvItem u k else .arr []) = .ok [] := by
  simp [recvItem, h, truthy, pyListCopy]

theorem requestedFlag_default (u : Participant) (k : String)
    (h : alookup u.received k = none) :
    requestedFlag u k = false := by
  simp [requestedFlag, recvItem, h, truthy]

/-- C7: every typed accessor degrades to its stated default when its
inbound field is absent from the received mapping — an empty mapping for
the tag accessors, an empty list for the pattern accessors, and false for
every `requested_*` capability flag — and none of them raises there (the
fallible copy constructions return `ok`). -/
theorem claim_C7_accessor_defaults (u : Participant) :
    (alookup u.received "instance-tags" = none → instance_tags u = .ok [])
    ∧ (alookup u.received "instance-security-group-tags" = none →
        instance_security_group_tags u = .ok [])
    ∧ (alookup u.received "instance-subnet-tags" = none → instance_subnet_tags u = .ok [])
    ∧ (alookup u.received "object-storage-access-patterns" = none →
        object_storage_access_patterns u = .ok [])
    ∧ (alookup u.received "object-storage-management-patterns" = none →
        object_storage_management_patterns u = .ok [])
    ∧ (alookup u.received "enable-instance-inspection" = none →
        requested_instance_inspection u = false)
    ∧ (alookup u.received "enable-acm-readonly" = none → requested_acm_readonly u = false)
    ∧ (alookup u.received "enable-acm-fullaccess" = none → requested_acm_fullaccess u = false)
    ∧ (alookup u.received "enable-network-management" = none →
        requested_network_management u = false)
    ∧ (alookup u.received "enable-load-balancer-management" = none →
        requested_load_balancer_management u = false)
    ∧ (alookup u.received "enable-block-storage-management" = none →
        requested_block_storage_management u = false)
    ∧ (alookup u.received "enable-dns-management" = none → requested_dns_management u = false)
    ∧ (alookup u.received "enable-object-storage-access" = none →
        requested_object_storage_access u = false)
    ∧ (alookup u.received "enable-object-storage-management" = none →
        requested_object_storage_management u = false)
    ∧ (alookup u.received "enable-ses-readonly" = none → requested_ses_readonly u = false)
    ∧ (alookup u.received "enable-ses-fullaccess" = none → requested_ses_fullaccess u = false)
    ∧ (alookup u.received "enable-sns-readonly" = none → requested_sns_readonly u = false)
    ∧ (alookup u.received "enable-sns-fullaccess" = none → requested_sns_fullaccess u = false)
    ∧ (alookup u.received "enable-mobiletargeting-readonly" = none →
        requested_mobiletargeting_readonly u = false)
    ∧ (alookup u.received "enable-mobiletargeting-fullaccess" = none →
        requested_mobiletargeting_fullaccess u = false)
    ∧ (alookup u.received "enable-sms-voice-readonly" = none →
        requested_sms_voice_readonly u = false)
    ∧ (alookup u.received "enable-sms-voice-fullaccess" = none →
        requested_sms_voice_fullaccess u = false) :=
  ⟨fun h => dict_accessor_default u _ h,
   fun h => dict_accessor_default u _ h,
   fun h => dict_accessor_default u _ h,
   fun h => list_accessor_default u _ h,
   fun h => list_accessor_default u _ h,
   fun h => requestedFlag_default u _ h,
   fun h => requestedFlag_default u _ h,
   fun h => requestedFlag_default u _ h,
   fun h => requestedFlag_default u _ h,
   fun h => requestedFlag_default u _ h,
   fun h => requestedFlag_default u _ h,
   fun h => requestedFlag_default u _ h,
   fun h => requestedFlag_default u _ h,
   fun h => requestedFlag_default u _ h,
   fun h => requestedFlag_default u _ h,
   fun h => requestedFlag_default u _ h,
   fun h => requestedFlag_default u _ h,
   fun h => requestedFlag_default u _ h,
   fun h => requestedFlag_default u _ h,
   fun h => requestedFlag_default u _ h,
   fun h => requestedFlag_default u _ h,
   fun h => requestedFlag_default u _ h⟩

/-- Witness for C7: a participant that has published nothing yields the
safe defaults from every accessor. -/
theorem claim_C7_witness :
    instance_tags ⟨"remote/0", "remote", []⟩ = .ok []
    ∧ object_storage_access_patterns ⟨"remote/0", "remote", []⟩ = .ok []
    ∧ requested_dns_management ⟨"remote/0", "remote", []⟩ = false := by
  have h := claim_C7_accessor_defaults ⟨"remote/0", "remote", []⟩
  exact ⟨h.1 rfl, h.2.2.2.1 rfl, h.2.2.2.2.2.2.2.2.2.2.2.1 rfl⟩

/-! ### Lemmas: mark_completed -/

theorem epstate_eq (a b : EPState) (h1 : a.kv = b.kv) (h2 : a.toPublish = b.toPublish)
    (h3 : a.flags = b.flags) : a = b := by
  cases a
  cases b
  simp_all

theorem pubCompleted_mark (ep : String) (st : EPState) (u : Participant) :
    pubCompleted (mark_completed ep st u).toPublish =
      aset (pubCompleted st.toPublish) (pyJsonKey (instance_id u))
        (.str (hashOf u.received)) := by
  show pubCompleted (aset st.toPublish "completed" _) = _
  unfold pubCompleted
  rw [alookup_aset_self]

/-- C3: `mark_completed` writes the current content hash into the persisted
acknowledgement store under this instance's key and into the outgoing
`completed` map under the instance id; afterwards `changed` is false and
`is_completed` is true, and a second call with unchanged data leaves the
whole endpoint state exactly as after the first. -/
theorem claim_C3_mark_completed_idempotent (ep : String) (st : EPState) (u : Participant)
    (s : String) (hid : instance_id u = JVal.str s) :
    alookup (mark_completed ep st u).kv (hashKey ep u) = some (hashOf u.received)
    ∧ alookup (pubCompleted (mark_completed ep st u).toPublish) s =
        some (.str (hashOf u.received))
    ∧ changed (mark_completed ep st u).kv ep u = false
    ∧ is_completed (mark_completed ep st u).toPublish u = true
    ∧ mark_completed ep (mark_completed ep st u) u = mark_completed ep st u := by
  have hkv : (mark_completed ep st u).kv = aset st.kv (hashKey ep u) (hashOf u.received) := rfl
  have h1 : alookup (mark_completed ep st u).kv (hashKey ep u) = some (hashOf u.received) := by
    rw [hkv]
    exact alookup_aset_self _ _ _
  have hpub : alookup (pubCompleted (mark_completed ep st u).toPublish) s =
      some (.str (hashOf u.received)) := by
    rw [pubCompleted_mark, hid]
    exact alookup_aset_self _ _ _
  refine ⟨h1, hpub, changed_false_of_kv_eq _ ep u h1, ?_, ?_⟩
  · unfold is_completed
    rw [hid]
    show (match alookup (pubCompleted (mark_completed ep st u).toPublish) s with
      | some (JVal.str h) => h == hashOf u.received
      | _ => false) = true
    rw [hpub]
    simp
  · refine epstate_eq _ _ ?_ ?_ rfl
    · show aset (aset st.kv (hashKey ep u) (hashOf u.received)) (hashKey ep u)
          (hashOf u.received) = aset st.kv (hashKey ep u) (hashOf u.received)
      exact aset_aset_same _ _ _ _
    · show aset (mark_completed ep st u).toPublish "completed"
          (.obj (aset (pubCompleted (mark_completed ep st u).toPublish)
            (pyJsonKey (instance_id u)) (.str (hashOf u.received)))) =
          (mark_completed ep st u).toPublish
      rw [pubCompleted_mark, aset_aset_same]
      exact aset_aset_same st.toPublish "completed"
        (JVal.obj (aset (pubCompleted st.toPublish) (pyJsonKey (instance_id u))
          (JVal.str (hashOf u.received))))
        (JVal.obj (aset (pubCompleted st.toPublish) (pyJsonKey (instance_id u))
          (JVal.str (hashOf u.received))))

/-- Witness for C3: a fresh request is acknowledged and published by one
`mark_completed`, and a second call is a no-op. -/
theorem claim_C3_witness :
    alookup (mark_completed "aws" ⟨[], [], []⟩
        ⟨"remote/0", "remote", [("requested", .bool true), ("instance-id", .str "i-1")]⟩).kv
      (hashKey "aws"
        ⟨"remote/0", "remote", [("requested", .bool true), ("instance-id", .str "i-1")]⟩)
      = some (hashOf [("requested", .bool true), ("instance-id", .str "i-1")])
    ∧ alookup (pubCompleted (mark_completed "aws" ⟨[], [], []⟩
        ⟨"remote/0", "remote",
          [("requested", .bool true), ("instance-id", .str "i-1")]⟩).toPublish) "i-1"
      = some (.str (hashOf [("requested", .bool true), ("instance-id", .str "i-1")]))
    ∧ changed (mark_completed "aws" ⟨[], [], []⟩
        ⟨"remote/0", "remote", [("requested", .bool true), ("instance-id", .str "i-1")]⟩).kv
        "aws"
        ⟨"remote/0", "remote", [("requested", .bool true), ("instance-id", .str "i-1")]⟩
      = false
    ∧ is_completed (mark_completed "aws" ⟨[], [], []⟩
        ⟨"remote/0", "remote",
          [("requested", .bool true), ("instance-id", .str "i-1")]⟩).toPublish
        ⟨"remote/0", "remote", [("requested", .bool true), ("instance-id", .str "i-1")]⟩
      = true
    ∧ mark_completed "aws" (mark_completed "aws" ⟨[], [], []⟩
        ⟨"remote/0", "remote", [("requested", .bool true), ("instance-id", .str "i-1")]⟩)
        ⟨"remote/0", "remote", [("requested", .bool true), ("instance-id", .str "i-1")]⟩
      = mark_completed "aws" ⟨[], [], []⟩
        ⟨"remote/0", "remote", [("requested", .bool true), ("instance-id", .str "i-1")]⟩ :=
  claim_C3_mark_completed_idempotent "aws" ⟨[], [], []⟩
    ⟨"remote/0", "remote", [("requested", .bool true), ("instance-id", .str "i-1")]⟩
    "i-1" rfl

/-! ### Lemmas: cleanup -/

theorem fold_clear_preserves_none (ep : String) (l : List Participant)
    (kv : List (String × String)) (k : String) (h : alookup kv k = none) :
    alookup (l.foldl (fun kv u => clearRequest ep kv u) kv) k = none := by
  induction l generalizing kv with
  | nil => exact h
  | cons v vs ih =>
    rw [List.foldl_cons]
    apply ih
    by_cases hk : k = hashKey ep v
    · subst hk
      exact alookup_aremove_self _ _
    · show alookup (aremove kv (hashKey ep v)) k = none
      rw [alookup_aremove_ne _ _ _ hk]
      exact h

theorem fold_clear_none_of_mem (ep : String) (u : Participant) (l : List Participant)
    (kv : List (String × String)) (hu : u ∈ l) :
    alookup (l.foldl (fun kv v => clearRequest ep kv v) kv) (hashKey ep u) = none := by
  induction l generalizing kv with
  | nil => cases hu
  | cons v vs ih =>
    rw [List.foldl_cons]
    rcases List.mem_cons.mp hu with h | h
    · subst h
      exact fold_clear_preserves_none ep vs _ _ (alookup_aremove_self _ _)
    · exact ih _ h

theorem fold_clear_frame (ep : String) (l : List Participant)
    (kv : List (String × String)) (k : String) (h : ∀ v ∈ l, hashKey ep v ≠ k) :
    alookup (l.foldl (fun kv u => clearRequest ep kv u) kv) k = alookup kv k := by
  induction l generalizing kv with
  | nil => rfl
  | cons v vs ih =>
    rw [List.foldl_cons]
    rw [ih _ (fun w hw => h w (List.mem_cons_of_mem v hw))]
    exact alookup_aremove_ne _ _ _ (Ne.symm (h v (List.mem_cons_self v vs)))

/-- C6: `cleanup` removes the departed unit's persisted acknowledgement
entry, so a subsequent request with the same instance id and identical
received data (with `instance-id` and `requested` present and truthy) is
`changed` again rather than treated as acknowledged. -/
theorem claim_C6_cleanup_clears (ep : String) (departed : List Participant) (st : EPState)
    (u u2 : Participant) (hu : u ∈ departed) (hrec : u2.received = u.received)
    (hid : truthy (instance_id u2) = true) (hreq : truthy (requestedVal u2) = true) :
    alookup (cleanup ep departed st).kv (hashKey ep u) = none
    ∧ changed (cleanup ep departed st).kv ep u2 = true := by
  have hkeyeq : hashKey ep u2 = hashKey ep u := by
    unfold hashKey instance_id recvItem
    rw [hrec]
  have hnone : alookup (cleanup ep departed st).kv (hashKey ep u) = none :=
    fold_clear_none_of_mem ep u departed st.kv hu
  refine ⟨hnone, ?_⟩
  unfold changed
  rw [hid, hreq, hkeyeq, hnone]
  rfl

/-- Witness for C6: after a unit with an acknowledged request departs, a
unit rejoining with the same data is `changed`. -/
theorem claim_C6_witness :
    alookup (cleanup "aws"
        [⟨"remote/0", "remote", [("requested", .bool true), ("instance-id", .str "i-1")]⟩]
        ⟨[(hashKey "aws"
            ⟨"remote/0", "remote", [("requested", .bool true), ("instance-id", .str "i-1")]⟩,
           hashOf [("requested", .bool true), ("instance-id", .str "i-1")])], [], []⟩).kv
      (hashKey "aws"
        ⟨"remote/0", "remote", [("requested", .bool true), ("instance-id", .str "i-1")]⟩)
      = none
    ∧ changed (cleanup "aws"
        [⟨"remote/0", "remote", [("requested", .bool true), ("instance-id", .str "i-1")]⟩]
        ⟨[(hashKey "aws"
            ⟨"remote/0", "remote", [("requested", .bool true), ("instance-id", .str "i-1")]⟩,
           hashOf [("requested", .bool true), ("instance-id", .str "i-1")])], [], []⟩).kv
        "aws"
        ⟨"remote/0", "remote", [("requested", .bool true), ("instance-id", .str "i-1")]⟩
      = true :=
  claim_C6_cleanup_clears "aws" _ _ _ _ (List.mem_singleton.mpr rfl) rfl rfl rfl

/-- C10: `clear` (and hence `cleanup`) removes only the persisted
acknowledgement entries of the departed units: the outgoing relation
payload — in particular the published `completed` map — is left untouched
and every other store key keeps its value; and `mark_completed` for one
instance preserves every other instance's entry in the published map. -/
theorem claim_C10_frame (ep : String) (departed : List Participant) (st : EPState)
    (u : Participant) (key s2 : String)
    (hkeys : ∀ v ∈ departed, hashKey ep v ≠ key)
    (hs2 : s2 ≠ pyJsonKey (instance_id u)) :
    (cleanup ep departed st).toPublish = st.toPublish
    ∧ alookup (cleanup ep departed st).kv key = alookup st.kv key
    ∧ alookup (pubCompleted (mark_completed ep st u).toPublish) s2 =
        alookup (pubCompleted st.toPublish) s2 := by
  refine ⟨rfl, fold_clear_frame ep departed st.kv key hkeys, ?_⟩
  rw [pubCompleted_mark]
  exact alookup_aset_ne _ _ _ _ hs2

/-- Witness for C10: departure of one unit and completion of another leave
an unrelated store key and an unrelated published entry unchanged. -/
theorem claim_C10_witness :
    (cleanup "aws"
        [⟨"remote/0", "remote", [("requested", .bool true), ("instance-id", .str "i-1")]⟩]
        ⟨[("other-key", "h0")], [("completed", .obj [("i-2", .str "h2")])], []⟩).toPublish
      = [("completed", .obj [("i-2", .str "h2")])]
    ∧ alookup (cleanup "aws"
        [⟨"remote/0", "remote", [("requested", .bool true), ("instance-id", .str "i-1")]⟩]
        ⟨[("other-key", "h0")], [("completed", .obj [("i-2", .str "h2")])], []⟩).kv
        "other-key"
      = alookup [("other-key", "h0")] "other-key"
    ∧ alookup (pubCompleted (mark_completed "aws"
        ⟨[("other-key", "h0")], [("completed", .obj [("i-2", .str "h2")])], []⟩
        ⟨"remote/0", "remote",
          [("requested", .bool true), ("instance-id", .str "i-1")]⟩).toPublish) "i-2"
      = alookup (pubCompleted [("completed", .obj [("i-2", .str "h2")])]) "i-2" :=
  claim_C10_frame "aws" _ _ _ "other-key" "i-2"
    (by
      intro v hv
      rw [List.mem_singleton] at hv
      subst hv
      decide)
    (by decide)

/-! ### Lemmas: the check_requests pass

During one pass the store is never observably written: the only write,
`mark_completed` in the reconciliation branch, stores the value the key
already holds.  So `changed` — which reads only the store — is the same
against the mid-pass store as against the initial one. -/

theorem checkStep_kv_pointwise (ep : String) (st0 : List (String × String))
    (acc : EPState × Bool) (u : Participant)
    (hinv : ∀ k, alookup acc.1.kv k = alookup st0 k) :
    ∀ k, alookup (checkStep ep acc u).1.kv k = alookup st0 k := by
  intro k
  cases hc : changed acc.1.kv ep u with
  | true => simpa [checkStep, hc] using hinv k
  | false =>
    cases hm : (!is_completed acc.1.toPublish u && completed_for_instance acc.1.kv ep u) with
    | false => simpa [checkStep, hc, hm] using hinv k
    | true =>
      have hcfi : completed_for_instance acc.1.kv ep u = true := by
        simp only [Bool.and_eq_true] at hm
        exact hm.2
      have hkv := (completed_for_instance_spec _ _ _ hcfi).2.2
      simp only [checkStep, hc, hm, Bool.false_eq_true, if_false, if_true]
      show alookup (aset acc.1.kv (hashKey ep u) (hashOf u.received)) k = alookup st0 k
      by_cases hk : k = hashKey ep u
      · subst hk
        rw [alookup_aset_self, ← hinv (hashKey ep u), hkv]
      · rw [alookup_aset_ne _ _ _ _ hk]
        exact hinv k

theorem foldl_check_kv_pointwise (ep : String) (st0 : List (String × String)) :
    ∀ (l : List Participant) (acc : EPState × Bool),
    (∀ k, alookup acc.1.kv k = alookup st0 k) →
    ∀ k, alookup ((l.foldl (checkStep ep) acc).1.kv) k = alookup st0 k := by
  intro l
  induction l with
  | nil => intro acc h k; exact h k
  | cons v vs ih =>
    intro acc h k
    rw [List.foldl_cons]
    exact ih _ (checkStep_kv_pointwise ep st0 acc v h) k

theorem checkStep_bool (ep : String) (st0 : List (String × String))
    (acc : EPState × Bool) (u : Participant)
    (hinv : ∀ k, alookup acc.1.kv k = alookup st0 k) :
    (checkStep ep acc u).2 = (acc.2 || changed st0 ep u) := by
  have hcc : changed acc.1.kv ep u = changed st0 ep u :=
    changed_congr _ _ ep u (hinv _)
  cases hc : changed st0 ep u with
  | true => simp [checkStep, hcc, hc]
  | false =>
    cases hm : (!is_completed acc.1.toPublish u && completed_for_instance acc.1.kv ep u) <;>
      simp [checkStep, hcc, hc, hm]

theorem foldl_check_bool (ep : String) (st0 : List (String × String)) :
    ∀ (l : List Participant) (acc : EPState × Bool),
    (∀ k, alookup acc.1.kv k = alookup st0 k) →
    (l.foldl (checkStep ep) acc).2 = (acc.2 || l.any (fun u => changed st0 ep u)) := by
  intro l
  induction l with
  | nil => intro acc _; simp
  | cons v vs ih =>
    intro acc h
    rw [List.foldl_cons, ih _ (checkStep_kv_pointwise ep st0 acc v h),
      checkStep_bool ep st0 acc v h]
    simp [Bool.or_assoc]

theorem expand_name_inj (ep a b : String) (h : expand_name ep a = expand_name ep b) :
    a = b := by
  unfold expand_name at h
  have h2 : ("endpoint." ++ ep ++ "." ++ a).data = ("endpoint." ++ ep ++ "." ++ b).data :=
    congrArg String.data h
  simp only [String.data_append, List.append_assoc, List.append_right_inj] at h2
  cases a
  cases b
  exact congrArg String.mk h2

theorem mem_setFlag_self (fl : List String) (f : String) : f ∈ setFlag fl f := by
  unfold setFlag
  by_cases h : f ∈ fl <;> simp [h]

theorem not_mem_clearFlag_self (fl : List String) (f : String) : f ∉ clearFlag fl f := by
  intro h
  simp [clearFlag, List.mem_filter] at h

theorem mem_clearFlag_ne (fl : List String) (f g : String) (h : f ≠ g) :
    f ∈ clearFlag fl g ↔ f ∈ fl := by
  simp [clearFlag, List.mem_filter, h]

theorem mem_toggleFlag_self (fl : List String) (f : String) (b : Bool) :
    f ∈ toggleFlag fl f b ↔ b = true := by
  cases b with
  | true => simpa [toggleFlag] using mem_setFlag_self fl f
  | false => simpa [toggleFlag] using not_mem_clearFlag_self fl f

/-- C2: one `check_requests` pass sets the endpoint's `requested`
(pending-work) flag iff some request is `changed` against the initial
store — a request merely reconciled (`completed_for_instance` but not
`is_completed`) does not set it — and unconditionally clears the
endpoint's `changed` flag.  (Instance ids are strings per the interface.) -/
theorem claim_C2_check_requests_flags (ep : String) (units : List Participant) (st : EPState)
    (hconf : ∀ u ∈ units, truthy (instance_id u) = true → ∃ s, instance_id u = JVal.str s) :
    ((expand_name ep "requested") ∈ (check_requests ep units st).flags ↔
      ∃ u ∈ units, changed st.kv ep u = true)
    ∧ (expand_name ep "changed") ∉ (check_requests ep units st).flags := by
  have hne : expand_name ep "requested" ≠ expand_name ep "changed" := by
    intro h
    exact absurd (expand_name_inj ep _ _ h) (by decide)
  have hflags : (check_requests ep units st).flags =
      clearFlag (toggleFlag (units.foldl (checkStep ep) (st, false)).1.flags
        (expand_name ep "requested") (units.foldl (checkStep ep) (st, false)).2)
        (expand_name ep "changed") := rfl
  constructor
  · rw [hflags, mem_clearFlag_ne _ _ _ hne, mem_toggleFlag_self,
      foldl_check_bool ep st.kv units (st, false) (fun k => rfl)]
    simp [List.any_eq_true]
  · rw [hflags]
    exact not_mem_clearFlag_self _ _

/-- Witness for C2: with one changed request pending, the pass raises the
`requested` flag and clears the `changed` flag. -/
theorem claim_C2_witness :
    ((expand_name "aws" "requested") ∈ (check_requests "aws"
        [⟨"remote/0", "remote", [("requested", .bool true), ("instance-id", .str "i-1")]⟩]
        ⟨[], [], [expand_name "aws" "changed"]⟩).flags ↔
      ∃ u ∈ [(⟨"remote/0", "remote",
          [("requested", .bool true), ("instance-id", .str "i-1")]⟩ : Participant)],
        changed [] "aws" u = true)
    ∧ (expand_name "aws" "changed") ∉ (check_requests "aws"
        [⟨"remote/0", "remote", [("requested", .bool true), ("instance-id", .str "i-1")]⟩]
        ⟨[], [], [expand_name "aws" "changed"]⟩).flags :=
  claim_C2_check_requests_flags "aws" _ _
    (by
      intro u hu _
      rw [List.mem_singleton] at hu
      subst hu
      exact ⟨"i-1", rfl⟩)

/-! ### Lemmas: reconciliation -/

theorem is_completed_true_iff (tp : List (String × JVal)) (u : Participant) (s : String)
    (hid : instance_id u = JVal.str s) :
    is_completed tp u = true ↔
      alookup (pubCompleted tp) s = some (.str (hashOf u.received)) := by
  unfold is_completed
  rw [hid]
  show (match alookup (pubCompleted tp) s with
    | some (JVal.str h) => h == hashOf u.received
    | _ => false) = true ↔ _
  cases halo : alookup (pubCompleted tp) s with
  | none => simp
  | some v => cases v <;> simp

/-- A step of the pass never disturbs a published entry that already
carries the hash the store holds for that instance. -/
theorem checkStep_preserves_good (ep : String) (st0 : List (String × String)) (s hU : String)
    (hstkey : alookup st0 ("endpoint." ++ ep ++ ".request." ++ s) = some hU)
    (acc : EPState × Bool) (v : Participant)
    (hinv : ∀ k, alookup acc.1.kv k = alookup st0 k)
    (hconf : truthy (instance_id v) = true → ∃ t, instance_id v = JVal.str t)
    (hgood : alookup (pubCompleted acc.1.toPublish) s = some (.str hU)) :
    alookup (pubCompleted (checkStep ep acc v).1.toPublish) s = some (.str hU) := by
  cases hc : changed acc.1.kv ep v with
  | true => simpa [checkStep, hc] using hgood
  | false =>
    cases hm : (!is_completed acc.1.toPublish v && completed_for_instance acc.1.kv ep v) with
    | false => simpa [checkStep, hc, hm] using hgood
    | true =>
      have hcfi : completed_for_instance acc.1.kv ep v = true := by
        simp only [Bool.and_eq_true] at hm
        exact hm.2
      obtain ⟨htr, _, hkv⟩ := completed_for_instance_spec _ _ _ hcfi
      obtain ⟨t, hidv⟩ := hconf htr
      have hstep : (checkStep ep acc v).1 = mark_completed ep acc.1 v := by
        simp [checkStep, hc, hm]
      rw [hstep, pubCompleted_mark, hidv]
      by_cases hts : t = s
      · subst hts
        have hkey : hashKey ep v = "endpoint." ++ ep ++ ".request." ++ t := by
          unfold hashKey
          rw [hidv]
          rfl
        rw [hkey] at hkv
        rw [hinv _] at hkv
        rw [hstkey] at hkv
        injection hkv with hh
        show alookup (aset (pubCompleted acc.1.toPublish) t (.str (hashOf v.received))) t =
          some (.str hU)
        rw [hh, alookup_aset_self]
      · show alookup (aset (pubCompleted acc.1.toPublish) t (.str (hashOf v.received))) s =
          some (.str hU)
        rw [alookup_aset_ne _ _ _ _ (Ne.symm hts)]
        exact hgood

theorem foldl_preserves_good (ep : String) (st0 : List (String × String)) (s hU : String)
    (hstkey : alookup st0 ("endpoint." ++ ep ++ ".request." ++ s) = some hU) :
    ∀ (l : List Participant) (acc : EPState × Bool),
    (∀ v ∈ l, truthy (instance_id v) = true → ∃ t, instance_id v = JVal.str t) →
    (∀ k, alookup acc.1.kv k = alookup st0 k) →
    alookup (pubCompleted acc.1.toPublish) s = some (.str hU) →
    alookup (pubCompleted ((l.foldl (checkStep ep) acc).1.toPublish)) s = some (.str hU) := by
  intro l
  induction l with
  | nil => intro acc _ _ hgood; exact hgood
  | cons v vs ih =>
    intro acc hconf hinv hgood
    rw [List.foldl_cons]
    exact ih _ (fun w hw => hconf w (List.mem_cons_of_mem v hw))
      (checkStep_kv_pointwise ep st0 acc v hinv)
      (checkStep_preserves_good ep st0 s hU hstkey acc v hinv
        (hconf v (List.mem_cons_self v vs)) hgood)

/-- The step for a request whose store acknowledgement is already current
leaves — or makes — its published entry current. -/
theorem checkStep_establishes_good (ep : String) (st0 : List (String × String)) (s : String)
    (u : Participant) (acc : EPState × Bool)
    (hinv : ∀ k, alookup acc.1.kv k = alookup st0 k)
    (hid : instance_id u = JVal.str s)
    (hcfi0 : completed_for_instance st0 ep u = true) :
    alookup (pubCompleted (checkStep ep acc u).1.toPublish) s =
      some (.str (hashOf u.received)) := by
  have hcfi : completed_for_instance acc.1.kv ep u = true := by
    rw [completed_for_instance_congr _ st0 ep u (hinv _)]
    exact hcfi0
  have hkv : alookup acc.1.kv (hashKey ep u) = some (hashOf u.received) :=
    (completed_for_instance_spec _ _ _ hcfi).2.2
  have hch : changed acc.1.kv ep u = false := changed_false_of_kv_eq _ _ _ hkv
  cases hic : is_completed acc.1.toPublish u with
  | true =>
    have hgood := (is_completed_true_iff _ _ _ hid).mp hic
    simpa [checkStep, hch, hic] using hgood
  | false =>
    have hstep : (checkStep ep acc u).1 = mark_completed ep acc.1 u := by
      simp [checkStep, hch, hic, hcfi]
    rw [hstep, pubCompleted_mark, hid]
    exact alookup_aset_self _ _ _

/-- C5: a request whose persisted acknowledgement equals its current hash
but whose published completion entry is missing or stale is reconciled by
one `check_requests` pass: afterwards `is_completed` holds, with no new
input data required.  (Instance ids are strings per the interface.) -/
theorem claim_C5_reconciliation (ep : String) (units : List Participant) (st : EPState)
    (u : Participant) (hu : u ∈ units)
    (hconf : ∀ v ∈ units, truthy (instance_id v) = true → ∃ t, instance_id v = JVal.str t)
    (hcfi : completed_for_instance st.kv ep u = true)
    (hnc : is_completed st.toPublish u = false) :
    is_completed (check_requests ep units st).toPublish u = true := by
  have htr : truthy (instance_id u) = true := (completed_for_instance_spec _ _ _ hcfi).1
  obtain ⟨s, hid⟩ := hconf u hu htr
  have hstkey : alookup st.kv ("endpoint." ++ ep ++ ".request." ++ s) =
      some (hashOf u.received) := by
    have hkv := (completed_for_instance_spec _ _ _ hcfi).2.2
    rwa [show hashKey ep u = "endpoint." ++ ep ++ ".request." ++ s by
      unfold hashKey
      rw [hid]
      rfl] at hkv
  obtain ⟨l1, l2, rfl⟩ := List.append_of_mem hu
  rw [is_completed_true_iff _ _ _ hid]
  have htp : (check_requests ep (l1 ++ u :: l2) st).toPublish =
      (((l1 ++ u :: l2).foldl (checkStep ep) (st, false)).1).toPublish := rfl
  rw [htp, List.foldl_append, List.foldl_cons]
  have hinv1 : ∀ k, alookup (l1.foldl (checkStep ep) (st, false)).1.kv k = alookup st.kv k :=
    foldl_check_kv_pointwise ep st.kv l1 (st, false) (fun _ => rfl)
  exact foldl_preserves_good ep st.kv s (hashOf u.received) hstkey l2 _
    (fun w hw => hconf w (List.mem_append.mpr (Or.inr (List.mem_cons_of_mem u hw))))
    (checkStep_kv_pointwise ep st.kv _ u hinv1)
    (checkStep_establishes_good ep st.kv s u _ hinv1 hid hcfi)

theorem hashOf_ne_empty (d : List (String × JVal)) : (hashOf d != "") = true := by
  rw [bne_iff_ne]
  intro h
  have h1 : (hashOf d).length = 64 := sha256Hex_length _
  rw [h] at h1
  simp at h1

theorem completed_for_instance_single (ep : String) (u : Participant)
    (hid : truthy (instance_id u) = true) (hreq : truthy (requestedVal u) = true) :
    completed_for_instance [(hashKey ep u, hashOf u.received)] ep u = true := by
  unfold completed_for_instance
  rw [hid, hreq]
  show (true && true &&
    match alookup [(hashKey ep u, hashOf u.received)] (hashKey ep u) with
    | some h => h != "" && h == hashOf u.received
    | none => false) = true
  rw [show alookup [(hashKey ep u, hashOf u.received)] (hashKey ep u) =
      some (hashOf u.received) from alookup_aset_self [] _ _]
  simp [hashOf_ne_empty]

/-- Witness for C5: a request acknowledged in the store but absent from
the published map is published by one pass. -/
theorem claim_C5_witness :
    is_completed (check_requests "aws"
        [⟨"remote/0", "remote", [("requested", .bool true), ("instance-id", .str "i-1")]⟩]
        ⟨[(hashKey "aws"
            ⟨"remote/0", "remote", [("requested", .bool true), ("instance-id", .str "i-1")]⟩,
           hashOf [("requested", .bool true), ("instance-id", .str "i-1")])], [], []⟩).toPublish
      ⟨"remote/0", "remote", [("requested", .bool true), ("instance-id", .str "i-1")]⟩
      = true :=
  claim_C5_reconciliation "aws" _ _ _ (List.mem_singleton.mpr rfl)
    (by
      intro v hv _
      rw [List.mem_singleton] at hv
      subst hv
      exact ⟨"i-1", rfl⟩)
    (completed_for_instance_single "aws" _ rfl rfl)
    rfl

/-! ### Lemmas: defensive copies -/

theorem defensiveDict_of_copy (acc : Participant → Except String (List (String × JVal))) :
    DefensiveDict acc := by
  intro u h w a h1 d hwf hrun hacc
  rw [runDictAccessor, hacc] at hrun
  simp only [Except.map, Except.ok.injEq] at hrun
  have ha : a = h.next := (congrArg Prod.fst hrun).symm
  have hh1 : h1 = (halloc h (.dictCell d)).2 := (congrArg Prod.snd hrun).symm
  subst ha
  subst hh1
  refine ⟨hget_next_none h hwf, hget_halloc_self h _ hwf,
    fun b hb => hget_hset_ne _ _ _ _ hb, ?_⟩
  refine ⟨_, _, by rw [runDictAccessor, hacc]; rfl, ?_⟩
  exact hget_halloc_self _ _ (wf_hset _ _ _ (wf_halloc h _ hwf))

theorem defensiveList_of_copy (acc : Participant → Except String (List JVal)) :
    DefensiveList acc := by
  intro u h w a h1 d hwf hrun hacc
  rw [runListAccessor, hacc] at hrun
  simp only [Except.map, Except.ok.injEq] at hrun
  have ha : a = h.next := (congrArg Prod.fst hrun).symm
  have hh1 : h1 = (halloc h (.listCell d)).2 := (congrArg Prod.snd hrun).symm
  subst ha
  subst hh1
  refine ⟨hget_next_none h hwf, hget_halloc_self h _ hwf,
    fun b hb => hget_hset_ne _ _ _ _ hb, ?_⟩
  refine ⟨_, _, by rw [runListAccessor, hacc]; rfl, ?_⟩
  exact hget_halloc_self _ _ (wf_hset _ _ _ (wf_halloc h _ hwf))

/-- C8: the mutable values returned by `instance_tags`,
`instance_security_group_tags`, `instance_subnet_tags`,
`object_storage_access_patterns` and `object_storage_management_patterns`
are defensive copies: each call hands the caller a freshly allocated
container, so mutating it changes no other cell — in particular nothing
the transport or another caller holds — and the underlying received data,
the request hash and every subsequent accessor result are unchanged (a
repeated call returns the original contents). -/
theorem claim_C8_defensive_copies :
    DefensiveDict instance_tags
    ∧ DefensiveDict instance_security_group_tags
    ∧ DefensiveDict instance_subnet_tags
    ∧ DefensiveList object_storage_access_patterns
    ∧ DefensiveList object_storage_management_patterns :=
  ⟨defensiveDict_of_copy _, defensiveDict_of_copy _, defensiveDict_of_copy _,
   defensiveList_of_copy _, defensiveList_of_copy _⟩

/-- Witness for C8: a caller that empties its copy of the received tags
does not disturb a second read. -/
theorem claim_C8_witness :
    hget ⟨[], 0⟩ 0 = none
    ∧ hget ⟨[(0, PyCell.dictCell [("env", JVal.str "prod")])], 1⟩ 0
        = some (.dictCell [("env", JVal.str "prod")])
    ∧ (∀ b, b ≠ 0 →
        hget (hset ⟨[(0, PyCell.dictCell [("env", JVal.str "prod")])], 1⟩ 0
          (PyCell.dictCell [])) b
        = hget ⟨[(0, PyCell.dictCell [("env", JVal.str "prod")])], 1⟩ b)
    ∧ ∃ a2 h2, runDictAccessor instance_tags
        ⟨"remote/0", "remote", [("instance-tags", .obj [("env", .str "prod")])]⟩
        (hset ⟨[(0, PyCell.dictCell [("env", JVal.str "prod")])], 1⟩ 0 (PyCell.dictCell []))
        = .ok (a2, h2)
        ∧ hget h2 a2 = some (.dictCell [("env", JVal.str "prod")]) :=
  claim_C8_defensive_copies.1
    ⟨"remote/0", "remote", [("instance-tags", .obj [("env", .str "prod")])]⟩
    ⟨[], 0⟩ (PyCell.dictCell []) 0
    ⟨[(0, PyCell.dictCell [("env", JVal.str "prod")])], 1⟩
    [("env", JVal.str "prod")]
    (fun p hp => absurd hp (List.not_mem_nil p))
    rfl rfl

end AWSIntegration
